import Mathlib

/-!
Verification of the py-sidebot core against its specification.

Shallow embedding of:
- src/tool.py   : schema derivation, tool wrapping, toolbox dispatch
- src/query.py  : the conversation loop (perform_query), chunk accumulation,
                  the safe_tool wrapper and the dashboard tools
- src/app.py    : the update_dashboard / query_db tools
- src/explain_plot.py : the explain-plot turn and its history copy

Python exceptions are modelled with Except String; machine effects (appending
to a shared message list) are modelled with an explicit store of lists indexed
by references, so that aliasing between the caller's history list and copies
of it is represented faithfully.
-/

namespace Sidebot

/-! ### JSON values (`dict | list | str | int | float | bool | None` payloads) -/

inductive Json where
  | null : Json
  | bool (b : Bool) : Json
  | num (n : Int) : Json
  | str (s : String) : Json
  | arr (xs : List Json) : Json
  | obj (kvs : List (String × Json)) : Json

/-- Minimal string escaping used by the serializer (quote and backslash). -/
def escChar (c : Char) : List Char :=
  if c = '\"' then ['\\', '\"'] else if c = '\\' then ['\\', '\\'] else [c]

def escapeChars : List Char → List Char
  | [] => []
  | c :: cs => escChar c ++ escapeChars cs

def escapeStr (s : String) : String :=
  String.mk (escapeChars s.data)

mutual

/-- Embedding of Python `json.dumps` on our Json values (default separators). -/
def dumps : Json → String
  | .null => "null"
  | .bool true => "true"
  | .bool false => "false"
  | .num n => toString n
  | .str s => "\"" ++ escapeStr s ++ "\""
  | .arr xs => "[" ++ dumpsList xs ++ "]"
  | .obj kvs => "\x7b" ++ dumpsObj kvs ++ "\x7d"

def dumpsList : List Json → String
  | [] => ""
  | [x] => dumps x
  | x :: y :: rest => dumps x ++ ", " ++ dumpsList (y :: rest)

def dumpsObj : List (String × Json) → String
  | [] => ""
  | [(k, v)] => "\"" ++ escapeStr k ++ "\": " ++ dumps v
  | (k, v) :: p :: rest =>
      "\"" ++ escapeStr k ++ "\": " ++ dumps v ++ ", " ++ dumpsObj (p :: rest)

end

/-- Field lookup in a serialized-object value (first binding, as produced by
our embeddings, which never repeat keys). -/
def jsonField : Json → String → Option Json
  | .obj kvs, k => (kvs.find? (fun p => p.1 = k)).map (fun p => p.2)
  | _, _ => none

/-! ### src/tool.py — the Schema Deriver, Tool Wrapper and Toolbox -/

/-- `inspect.Parameter.kind` values. -/
inductive ParamKind where
  | positional_only
  | positional_or_keyword
  | var_positional
  | keyword_only
  | var_keyword
deriving DecidableEq

/-- One entry of `inspect.signature(func).parameters`: its name, kind, and
whether `param.default is param.empty` is false (i.e. it has a default). -/
structure Param where
  name : String
  kind : ParamKind
  hasDefault : Bool
deriving DecidableEq

/-- The fragment of Python's type language that `type_to_json_schema`
inspects: primitives, bare/parametrized list and dict, TypedDict records,
`Annotated[t, "description"]`, and anything else (unsupported). -/
inductive PyType where
  | str : PyType
  | int : PyType
  | float : PyType
  | bool : PyType
  | noneType : PyType
  | listOf (t : PyType) : PyType
  | listBare : PyType
  | dictOf (k v : PyType) : PyType
  | dictBare : PyType
  | typedDictT (fields : List (String × PyType)) : PyType
  | annot (t : PyType) (d : String) : PyType
  | other (nm : String) : PyType

/-- Embedding of `type_dict(type, description, **kwargs)` from src/tool.py:
the `description` key is omitted exactly when the description is `None`. -/
def type_dict (ty : String) (description : Option String) (kwargs : List (String × Json)) : Json :=
  Json.obj
    ([("type", Json.str ty)] ++
      (match description with
       | none => []
       | some d => [("description", Json.str d)]) ++
      kwargs)

mutual

/-- Embedding of `type_to_json_schema(t, desc)` from src/tool.py. Failed
`assert`s and the final `raise ValueError` are modelled as `Except.error`.
The branches are checked in the source's order. -/
def type_to_json_schema : PyType → Option String → Except String Json
  | .annot t d, desc =>
      -- assert desc is None or desc == ""
      match desc with
      | some d0 =>
          if d0 = "" then type_to_json_schema t (some d)
          else .error "AssertionError"
      | none => type_to_json_schema t (some d)
  | .listOf t, desc => do
      let items ← type_to_json_schema t none
      pure (type_dict "array" desc [("items", items)])
  | .dictOf k v, desc =>
      -- assert args[0] is str
      match k with
      | .str => do
          let vs ← type_to_json_schema v none
          pure (type_dict "object" desc [("additionalProperties", vs)])
      | _ => .error "AssertionError"
  | .typedDictT fields, desc => do
      let props ← fieldsToSchema fields
      pure (type_dict "object" desc [("properties", Json.obj props)])
  | .dictBare, desc => pure (type_dict "object" desc [])
  | .listBare, desc => pure (type_dict "array" desc [])
  | .str, desc => pure (type_dict "string" desc [])
  | .int, desc => pure (type_dict "integer" desc [])
  | .float, desc => pure (type_dict "number" desc [])
  | .bool, desc => pure (type_dict "boolean" desc [])
  | .noneType, desc => pure (type_dict "null" desc [])
  | .other nm, _ => .error ("Unsupported type: " ++ nm)

/-- The `{k: type_to_json_schema(v) for k, v in annotations.items()}`
comprehension (a raise inside it propagates). -/
def fieldsToSchema : List (String × PyType) → Except String (List (String × Json))
  | [] => pure []
  | (k, v) :: rest => do
      let j ← type_to_json_schema v none
      let r ← fieldsToSchema rest
      pure ((k, j) :: r)

end

/-- A Python function as the Schema Deriver sees it: `__name__`, `__doc__`,
`inspect.signature(...).parameters` in declaration order, and
`get_type_hints(func, include_extras=True)` in order (possibly including a
`"return"` entry). -/
structure PyFunc where
  name : String
  doc : Option String
  params : List Param
  annots : List (String × PyType)

/-- Python truthiness of `name or fallback` for an optional string. -/
def pyOr (nm : Option String) (fallback : String) : String :=
  match nm with
  | some n => if n = "" then fallback else n
  | none => fallback

/-- The parameters `func_to_schema` puts into `required`: no default value
and not `*args`/`**kwargs`. -/
def isRequiredParam (p : Param) : Bool :=
  !p.hasDefault && !(p.kind = ParamKind.var_positional) && !(p.kind = ParamKind.var_keyword)

/-- Embedding of `func_to_schema(func, name)` from src/tool.py. -/
def func_to_schema (f : PyFunc) (nm : Option String) : Except String Json :=
  match fieldsToSchema (f.annots.filter (fun kv => kv.1 ≠ "return")) with
  | .error e => .error e
  | .ok props =>
      .ok (Json.obj
        [("type", Json.str "function"),
         ("function", Json.obj
           ([("name", Json.str (pyOr nm f.name))] ++
             (match f.doc with
              | none => []
              | some d => [("description", Json.str d)]) ++
             [("parameters", Json.obj
               [("type", Json.str "object"),
                ("properties", Json.obj props),
                ("required", Json.arr
                  ((f.params.filter isRequiredParam).map (fun p => Json.str p.name)))])]))])

/-- `WrappedTool`: the wrapped callable (its runtime behaviour on parsed
keyword arguments, exceptions as `Except.error`), its signature data, the
resolved name, and the schema computed at construction time. -/
structure WrappedTool where
  func : PyFunc
  impl : Json → Except String Json
  name : String
  schema : Json

/-- Embedding of the `tool` decorator: `WrappedTool(func, name or
func.__name__)`, whose constructor derives the schema (raising at
registration time on unsupported types). -/
def toolDec (f : PyFunc) (impl : Json → Except String Json) (nm : Option String) :
    Except String WrappedTool :=
  match func_to_schema f (some (pyOr nm f.name)) with
  | .error e => .error e
  | .ok schema =>
      .ok { func := f, impl := impl, name := pyOr nm f.name, schema := schema }

/-- Decorating a list of functions, as the host does before building a
Toolbox; the first registration failure propagates. -/
def mkTools : List (PyFunc × (Json → Except String Json)) → Except String (List WrappedTool)
  | [] => .ok []
  | (f, impl) :: rest =>
      match toolDec f impl none with
      | .error e => .error e
      | .ok t =>
          match mkTools rest with
          | .error e => .error e
          | .ok ts => .ok (t :: ts)

/-- `Toolbox.__init__`: `self.tools = {tool.name: tool for ...}` and
`self.schema = [tool.schema for ...]`. The dict is kept as the insertion
list; lookups take the last binding for a name, matching dict overwrite. -/
structure Toolbox where
  tools : List (String × WrappedTool)
  schema : List Json

def Toolbox.ofTools (ts : List WrappedTool) : Toolbox :=
  { tools := ts.map (fun t => (t.name, t)),
    schema := ts.map (fun t => t.schema) }

/-- `self.tools.get(name)` (last binding wins, as in a Python dict). -/
def Toolbox.getTool (tb : Toolbox) (nm : String) : Option WrappedTool :=
  (tb.tools.reverse.find? (fun p => p.1 = nm)).map (fun p => p.2)

/-- The protocol-level tool call (`ChatCompletionMessageToolCallParam`):
`id`, `function.name`, `function.arguments` (a JSON-encoded string). -/
structure ToolCall where
  id : String
  name : String
  arguments : String

/-- The protocol-level tool result message returned by `toolinvoke`. -/
structure ToolResult where
  tool_call_id : String
  role : String
  name : String
  content : String
deriving DecidableEq

/-- Stand-in for `traceback.format_exc()`: some string derived from the
in-flight exception (its exact text never matters to the claims). -/
def format_exc (e : String) : String :=
  "Traceback (most recent call last): " ++ e

/-- The `{"success": False, "error": str(e), "traceback": ...}` payload
built in `toolinvoke`'s except-branch. -/
def errPayload (e : String) : Json :=
  Json.obj [("success", Json.bool false), ("error", Json.str e),
    ("traceback", Json.str (format_exc e))]

/-- Embedding of `toolinvoke(func, tool_call)` from src/tool.py. `loads`
models `json.loads` (an arbitrary parser that may fail); `func` models the
awaited callable. The try/except covers the parse and the call, so the
embedding is a total function into `ToolResult`. -/
def toolinvoke (loads : String → Except String Json)
    (func : Json → Except String Json) (tc : ToolCall) : ToolResult :=
  let result :=
    match loads tc.arguments with
    | .error e => dumps (errPayload e)
    | .ok kwargs =>
        match func kwargs with
        | .error e => dumps (errPayload e)
        | .ok v => dumps v
  { tool_call_id := tc.id, role := "tool", name := tc.name, content := result }

/-- The message of the `TypeError` Python raises when the fallthrough in
`Toolbox.__call__` invokes `None` as a function. -/
def noneTypeMsg : String := "\x27NoneType\x27 object is not callable"

/-- Embedding of `Toolbox.__call__` (dispatch) from src/tool.py. In the
source, when the name is unknown, `await toolinvoke(lambda ...: {"success":
False, "error": f"Unknown tool: ..."}, tool_call)` is evaluated but its
result is NOT returned (the branch lacks a `return`); execution falls
through to `return await toolinvoke(tool, tool_call)` with `tool = None`,
and calling `None` raises a `TypeError` that `toolinvoke` catches. -/
def Toolbox.dispatch (loads : String → Except String Json) (tb : Toolbox)
    (tc : ToolCall) : ToolResult :=
  match tb.getTool tc.name with
  | none => toolinvoke loads (fun _ => .error noneTypeMsg) tc
  | some t => toolinvoke loads t.impl tc

/-! ### The query executor and the dashboard tools (src/app.py, src/query.py) -/

/-- Observable effects of the dashboard tools: an invocation of the query
executor, and an invocation of the dashboard state sink (`update_filter`,
which sets `current_query`/`current_title`). -/
inductive DashEvent where
  | queryExec (sql : String) : DashEvent
  | dashUpdate (q t : String) : DashEvent
deriving DecidableEq

/-- Leading-whitespace removal over the character list. -/
def dropSpaces : List Char → List Char
  | [] => []
  | c :: cs =>
      if c = ' ' || c = '\t' || c = '\n' || c = '\r' then dropSpaces cs else c :: cs

/-- Case-insensitive match of a character against a lowercase pattern
character (ASCII). -/
def charLowEq (c p : Char) : Bool :=
  c = p || (65 ≤ c.toNat && c.toNat ≤ 90 && c.toNat + 32 = p.toNat)

def startsWithKeyword : List Char → List Char → Bool
  | _, [] => true
  | [], _ :: _ => false
  | c :: cs, p :: ps => charLowEq c p && startsWithKeyword cs ps

/-- Modelled from the spec: SELECT-statement recognition for the external
query engine (duckdb). src/app.py's `query_db` delegates to
`duckdb.query(...)`, whose rejection behaviour is not part of this
repository; §6 of the spec states the executor "must reject (raise) for
non-SELECT statements". -/
def isSelect (sql : String) : Bool :=
  startsWithKeyword (dropSpaces sql.data) "select".data

/-- Modelled from the spec: the query executor `execute(sql) ->
rowsAsJSONArrayString` (src/app.py `query_db`, the `query` tool). It
returns the engine's rows (an arbitrary row function, irrelevant here) for
SELECT statements and raises for anything else. -/
def query_db (rows : String → String) (sql : String) : Except String String :=
  if isSelect sql then .ok (rows sql) else .error ("not a SELECT statement: " ++ sql)

/-- Embedding of the `update_dashboard` tool body from src/app.py: validate
via `query_db` only when the query is non-empty (an exception propagates to
the wrapper), then call `update_filter(query, title)`. Returns the outcome
together with the ordered trace of effects. -/
def update_dashboard_app (qdb : String → Except String String) (query title : String) :
    Except String Unit × List DashEvent :=
  if query ≠ "" then
    match qdb query with
    | .error e => (.error e, [DashEvent.queryExec query])
    | .ok _ => (.ok (), [DashEvent.queryExec query, DashEvent.dashUpdate query title])
  else
    (.ok (), [DashEvent.dashUpdate query title])

/-- Embedding of the `update_dashboard` tool body from src/query.py: it
always validates via `query_db` ("Verify that the query is OK; throws if
not") before calling `update_filter(query, title)`. -/
def update_dashboard_qp (qdb : String → Except String String) (query title : String) :
    Except String Unit × List DashEvent :=
  match qdb query with
  | .error e => (.error e, [DashEvent.queryExec query])
  | .ok _ => (.ok (), [DashEvent.queryExec query, DashEvent.dashUpdate query title])

/-- Embedding of the `query` tool body from src/query.py: report progress
(no modelled effect) and return `await query_db(query)`. -/
def query_tool_qp (qdb : String → Except String String) (q : String) :
    Except String String :=
  qdb q

/-- Embedding of `safe_tool`'s inner wrapper from src/query.py: run the
wrapped coroutine; any exception is converted into a
`{"success": False, "error": str(e)}` value instead of propagating. -/
def safe_tool_wrapper (fn : Json → Except String Json) (a : Json) : Json :=
  match fn a with
  | .ok v => v
  | .error e => Json.obj [("success", Json.bool false), ("error", Json.str e)]

/-! ### The conversation loop (src/query.py `perform_query`) -/

/-- A parsed tool call as it appears on a (possibly accumulated) langchain
message: `{"name": ..., "args": ..., "id": ...}`. -/
structure LCToolCall where
  name : String
  args : Json
  id : String

/-- One streamed delta of an in-progress assistant message: its text
content (already normalized to a string, the `str` case of
`normalize_content`), its tool-call fragments, and the finish signal
carried in the chunk's response metadata (the loop never reads it). -/
structure StreamChunk where
  content : String
  tool_calls : List LCToolCall
  finish : Option String

/-- Embedding of the `str` branch of `normalize_content` from src/query.py
(chunk content is modelled as its normalized text). -/
def normalize_content (content : String) : String := content

/-- Modelled from the spec: `response += chunk` merges two message chunks
(langchain's `AIMessageChunk.__add__`, an external library); §3 of the spec
states the merge concatenates chunk text and tool-call fragments
independently, in arrival order. The finish signal of the later chunk wins
when present. -/
def mergeChunk (a b : StreamChunk) : StreamChunk :=
  { content := a.content ++ b.content,
    tool_calls := a.tool_calls ++ b.tool_calls,
    finish := match b.finish with
              | some f => some f
              | none => a.finish }

/-- Embedding of the accumulation in the streaming loop: `response = None`;
for each chunk, `response = chunk` if it is the first, else
`response += chunk`. -/
def accumulate : List StreamChunk → Option StreamChunk
  | [] => none
  | c :: rest => some (rest.foldl mergeChunk c)

/-- The fragments yielded to the caller while streaming one round: the
normalized content of every chunk whose content is truthy (non-empty). -/
def chunkYields (chunks : List StreamChunk) : List String :=
  (chunks.filter (fun c => c.content ≠ "")).map (fun c => normalize_content c.content)

/-- Conversation-history messages: the system prompt, `HumanMessage`,
an (accumulated) assistant message with its parsed tool calls and finish
metadata, a `ToolMessage` produced by `ainvoke`, the Python `None` that
`messages.append(response)` appends when the stream was empty, and the
plain `AIMessage` appended on a dispatch error. -/
inductive Msg where
  | system (s : String) : Msg
  | human (s : String) : Msg
  | ai (content : String) (tool_calls : List LCToolCall) (finish : Option String) : Msg
  | toolMsg (tool_call_id : String) (content : String) : Msg
  | pyNone : Msg

/-- The assistant message object appended to history for an accumulated
response. -/
def aiOf (r : StreamChunk) : Msg :=
  Msg.ai r.content r.tool_calls r.finish

/-! #### A store of aliased message lists

`perform_query` mutates (appends to) the very list object it is handed;
`explain_plot` hands it a shallow copy. To state both faithfully, histories
live in a store of lists addressed by references. -/

abbrev Ref := Nat

def getList : List (List Msg) → Nat → List Msg
  | [], _ => []
  | x :: _, 0 => x
  | _ :: xs, n + 1 => getList xs n

def setList : List (List Msg) → Nat → List Msg → List (List Msg)
  | [], _, _ => []
  | _ :: xs, 0, v => v :: xs
  | x :: xs, n + 1, v => x :: setList xs n v

structure Store where
  lists : List (List Msg)

def Store.get (s : Store) (r : Ref) : List Msg :=
  getList s.lists r

/-- Append messages to the list object named by `r` (Python `list.append`
executed once per message, in order). -/
def Store.pushAll (s : Store) (r : Ref) (ms : List Msg) : Store :=
  ⟨setList s.lists r (getList s.lists r ++ ms)⟩

/-- Allocate a fresh list object (`[*messages]`, a shallow copy when seeded
with an existing list's contents). -/
def Store.alloc (s : Store) (v : List Msg) : Store × Ref :=
  (⟨s.lists ++ [v]⟩, s.lists.length)

/-! #### Tool dispatch within a round -/

/-- The `tools_by_name` mapping: tool name to the behaviour of
`tool.ainvoke(tool_call)` on the call's parsed args — producing the
`ToolMessage` content, or raising. -/
abbrev ToolMap := List (String × (Json → Except String String))

def lookupToolFn (tools : ToolMap) (nm : String) : Option (Json → Except String String) :=
  (tools.find? (fun p => p.1 = nm)).map (fun p => p.2)

/-- Embedding of the dispatch loop
`for tool_call in response.tool_calls: messages.append(await
tools_by_name[tool_call["name"]].ainvoke(tool_call))`. On success, the
ordered list of appended `ToolMessage`s; on the first failure (a `KeyError`
on the name, or `ainvoke` raising), the messages appended before the
failure together with the exception text. -/
def dispatchCalls (tools : ToolMap) : List LCToolCall → Except (List Msg × String) (List Msg)
  | [] => .ok []
  | c :: rest =>
      match lookupToolFn tools c.name with
      | none => .error ([], "KeyError: " ++ c.name)
      | some f =>
          match f c.args with
          | .error e => .error ([], e)
          | .ok s =>
              match dispatchCalls tools rest with
              | .ok ms => .ok (Msg.toolMsg c.id s :: ms)
              | .error (ms1, e) => .error (Msg.toolMsg c.id s :: ms1, e)

/-- What one round of the loop did: the accumulated response (`None` for an
empty stream), the `ToolMessage`s appended for its calls, every message the
round appended to history, and whether the loop continued to another model
request afterwards. -/
structure RoundInfo where
  response : Option StreamChunk
  results : List Msg
  appended : List Msg
  continued : Bool

/-- The outcome of running `perform_query`'s while-loop against a script of
model responses: the final store, the yielded fragments, the number of
model requests answered, whether the loop reached its own termination
(rather than exhausting the script), and the per-round log. -/
structure RunResult where
  store : Store
  yields : List String
  requests : Nat
  completed : Bool
  rounds : List RoundInfo

/-- The message of the `AttributeError` raised by `response.tool_calls`
when the accumulated response is `None`. -/
def attrErrMsg : String :=
  "\x27NoneType\x27 object has no attribute \x27tool_calls\x27"

/-- Embedding of the `while True` loop of `perform_query` (src/query.py).
Each scripted entry is the chunk stream of one model request. Per round:
yield the truthy chunk contents, accumulate the chunks, append the
response to history, then — inside the try/except — dispatch its tool
calls and append their results in order (looping afterwards, with a
`"\n\n"` separator yield), return when the call list is empty, or convert
the first exception into a final `**Error**` assistant message. -/
def perform_query_rounds (tools : ToolMap) :
    List (List StreamChunk) → Store → Ref → RunResult
  | [], store, _ =>
      { store := store, yields := [], requests := 0, completed := false, rounds := [] }
  | chunks :: rest, store, ref =>
      let ys := chunkYields chunks
      match accumulate chunks with
      | none =>
          -- messages.append(None); response.tool_calls raises AttributeError,
          -- caught by the except-branch
          let block := [Msg.pyNone, Msg.ai ("**Error**: " ++ attrErrMsg) [] none]
          { store := store.pushAll ref block, yields := ys, requests := 1,
            completed := true,
            rounds := [{ response := none, results := [], appended := block, continued := false }] }
      | some r =>
          if r.tool_calls.length > 0 then
            match dispatchCalls tools r.tool_calls with
            | .ok ms =>
                let block := aiOf r :: ms
                let res := perform_query_rounds tools rest (store.pushAll ref block) ref
                { store := res.store, yields := ys ++ "\n\n" :: res.yields,
                  requests := res.requests + 1, completed := res.completed,
                  rounds := { response := some r, results := ms, appended := block,
                              continued := true } :: res.rounds }
            | .error (ms1, e) =>
                let block := (aiOf r :: ms1) ++ [Msg.ai ("**Error**: " ++ e) [] none]
                { store := store.pushAll ref block, yields := ys, requests := 1,
                  completed := true,
                  rounds := [{ response := some r, results := ms1, appended := block,
                               continued := false }] }
          else
            let block := [aiOf r]
            { store := store.pushAll ref block, yields := ys, requests := 1,
              completed := true,
              rounds := [{ response := some r, results := [], appended := block,
                           continued := false }] }

/-- Embedding of one `perform_query(messages, user_input, ...)` turn: append
`HumanMessage(user_input)` to the caller-supplied history list, then run the
loop. -/
def perform_query (tools : ToolMap) (script : List (List StreamChunk))
    (store : Store) (ref : Ref) (user_input : String) : RunResult :=
  perform_query_rounds tools script (store.pushAll ref [Msg.human user_input]) ref

/-- Embedding of `explain_plot` (src/explain_plot.py) at the granularity of
the history claim: `messages = [*messages]` allocates a fresh list object
seeded with the caller's contents, and the turn (the initial `ask`, which
runs `perform_query`) operates on that copy. -/
def explain_plot (tools : ToolMap) (script : List (List StreamChunk))
    (store : Store) (caller : Ref) (prompt : String) : RunResult :=
  let a := store.alloc (store.get caller)
  perform_query tools script a.1 a.2 prompt

/-! ### Auxiliary notions used by the theorems -/

/-- Concatenation of a list of strings in order. -/
def textJoin : List String → String
  | [] => ""
  | s :: rest => s ++ textJoin rest

/-- Concatenation of a list of lists in order. -/
def flat {α : Type} : List (List α) → List α
  | [] => []
  | l :: rest => l ++ flat rest

/-- `resultsMatch calls ms`: `ms` consists of exactly one `ToolMessage` per
call in `calls`, in the same order, each carrying the id of its call. -/
def resultsMatch : List LCToolCall → List Msg → Prop
  | [], [] => True
  | c :: cs, Msg.toolMsg tid _ :: ms => tid = c.id ∧ resultsMatch cs ms
  | _, _ => False

/-! ### Store lemmas -/

theorem setList_length (l : List (List Msg)) (r : Nat) (v : List Msg) :
    (setList l r v).length = l.length := by
  induction l generalizing r with
  | nil => simp [setList]
  | cons x xs ih =>
    cases r with
    | zero => simp [setList]
    | succ n => simp [setList, ih]

theorem getList_setList_eq (l : List (List Msg)) (r : Nat) (v : List Msg)
    (h : r < l.length) : getList (setList l r v) r = v := by
  induction l generalizing r with
  | nil => simp at h
  | cons x xs ih =>
    cases r with
    | zero => simp [setList, getList]
    | succ n =>
      simp only [setList, getList]
      exact ih n (by simpa using h)

theorem getList_setList_ne (l : List (List Msg)) (r r' : Nat) (v : List Msg)
    (h : r' ≠ r) : getList (setList l r v) r' = getList l r' := by
  induction l generalizing r r' with
  | nil => simp [setList]
  | cons x xs ih =>
    cases r with
    | zero =>
      cases r' with
      | zero => exact absurd rfl h
      | succ m => simp [setList, getList]
    | succ n =>
      cases r' with
      | zero => simp [setList, getList]
      | succ m =>
        simp only [setList, getList]
        exact ih n m (fun hc => h (by simp [hc]))

theorem getList_append_left (l l2 : List (List Msg)) (r : Nat)
    (h : r < l.length) : getList (l ++ l2) r = getList l r := by
  induction l generalizing r with
  | nil => simp at h
  | cons x xs ih =>
    cases r with
    | zero => simp [getList]
    | succ n =>
      simp only [List.cons_append, getList]
      exact ih n (by simpa using h)

theorem getList_append_self (l : List (List Msg)) (v : List Msg) :
    getList (l ++ [v]) l.length = v := by
  induction l with
  | nil => simp [getList]
  | cons x xs ih => simpa [getList] using ih

theorem pushAll_length (s : Store) (r : Ref) (ms : List Msg) :
    (s.pushAll r ms).lists.length = s.lists.length := by
  simp [Store.pushAll, setList_length]

theorem pushAll_get_eq (s : Store) (r : Ref) (ms : List Msg)
    (h : r < s.lists.length) : (s.pushAll r ms).get r = s.get r ++ ms := by
  simp [Store.pushAll, Store.get, getList_setList_eq _ _ _ h]

theorem pushAll_get_ne (s : Store) (r r' : Ref) (ms : List Msg)
    (h : r' ≠ r) : (s.pushAll r ms).get r' = s.get r' := by
  simp [Store.pushAll, Store.get, getList_setList_ne _ _ _ _ h]

/-! ### Loop lemmas -/

theorem rounds_store_length (tools : ToolMap) (script : List (List StreamChunk))
    (store : Store) (ref : Ref) :
    (perform_query_rounds tools script store ref).store.lists.length = store.lists.length := by
  induction script generalizing store with
  | nil => rfl
  | cons chunks rest ih =>
    simp only [perform_query_rounds]
    cases accumulate chunks with
    | none => simp [pushAll_length]
    | some r =>
      by_cases htc : r.tool_calls.length > 0
      · simp only [htc, if_true]
        cases dispatchCalls tools r.tool_calls with
        | ok ms => simp [ih, pushAll_length]
        | error pe => simp [pushAll_length]
      · simp [htc, pushAll_length]

theorem rounds_get_eq (tools : ToolMap) (script : List (List StreamChunk))
    (store : Store) (ref : Ref) (h : ref < store.lists.length) :
    (perform_query_rounds tools script store ref).store.get ref =
      store.get ref ++
        flat ((perform_query_rounds tools script store ref).rounds.map (fun ri => ri.appended)) := by
  induction script generalizing store with
  | nil => simp [perform_query_rounds, flat]
  | cons chunks rest ih =>
    simp only [perform_query_rounds]
    cases accumulate chunks with
    | none => simp [flat, pushAll_get_eq _ _ _ h]
    | some r =>
      by_cases htc : r.tool_calls.length > 0
      · simp only [htc, if_true]
        cases hd : dispatchCalls tools r.tool_calls with
        | ok ms =>
          have h2 : ref < (store.pushAll ref (aiOf r :: ms)).lists.length := by
            simpa [pushAll_length] using h
          simp only [List.map_cons, flat]
          rw [ih _ h2, pushAll_get_eq _ _ _ h, List.append_assoc]
        | error pe => simp [flat, pushAll_get_eq _ _ _ h]
      · simp [htc, flat, pushAll_get_eq _ _ _ h]

theorem rounds_get_ne (tools : ToolMap) (script : List (List StreamChunk))
    (store : Store) (ref r' : Ref) (h : r' ≠ ref) :
    (perform_query_rounds tools script store ref).store.get r' = store.get r' := by
  induction script generalizing store with
  | nil => rfl
  | cons chunks rest ih =>
    simp only [perform_query_rounds]
    cases accumulate chunks with
    | none => simp [pushAll_get_ne _ _ _ _ h]
    | some r =>
      by_cases htc : r.tool_calls.length > 0
      · simp only [htc, if_true]
        cases dispatchCalls tools r.tool_calls with
        | ok ms => simp [ih, pushAll_get_ne _ _ _ _ h]
        | error pe => simp [pushAll_get_ne _ _ _ _ h]
      · simp [htc, pushAll_get_ne _ _ _ _ h]

theorem dispatch_resultsMatch (tools : ToolMap) (calls : List LCToolCall)
    (ms : List Msg) (h : dispatchCalls tools calls = .ok ms) :
    resultsMatch calls ms := by
  induction calls generalizing ms with
  | nil =>
    simp only [dispatchCalls] at h
    cases h
    trivial
  | cons c cs ih =>
    cases hl : lookupToolFn tools c.name with
    | none =>
      simp only [dispatchCalls, hl] at h
      exact Except.noConfusion h
    | some f =>
      cases hf : f c.args with
      | error e =>
        simp only [dispatchCalls, hl, hf] at h
        exact Except.noConfusion h
      | ok s =>
        cases hd : dispatchCalls tools cs with
        | ok ms0 =>
          simp only [dispatchCalls, hl, hf, hd] at h
          injection h with h2
          subst h2
          exact ⟨rfl, ih ms0 hd⟩
        | error pe =>
          simp only [dispatchCalls, hl, hf, hd] at h
          exact Except.noConfusion h

theorem rounds_matched (tools : ToolMap) (script : List (List StreamChunk))
    (store : Store) (ref : Ref) :
    ∀ ri ∈ (perform_query_rounds tools script store ref).rounds, ri.continued = true →
      ∃ r, ri.response = some r ∧ ri.appended = aiOf r :: ri.results ∧
        resultsMatch r.tool_calls ri.results := by
  induction script generalizing store with
  | nil => intro ri hri; simp [perform_query_rounds] at hri
  | cons chunks rest ih =>
    intro ri hri hc
    cases hacc : accumulate chunks with
    | none =>
      simp only [perform_query_rounds, hacc, List.mem_singleton] at hri
      subst hri
      simp at hc
    | some r =>
      by_cases htc : r.tool_calls.length > 0
      · cases hd : dispatchCalls tools r.tool_calls with
        | ok ms =>
          simp only [perform_query_rounds, hacc, if_pos htc, hd, List.mem_cons] at hri
          rcases hri with hri | hri
          · subst hri
            exact ⟨r, rfl, rfl, dispatch_resultsMatch tools r.tool_calls ms hd⟩
          · exact ih _ ri hri hc
        | error pe =>
          simp only [perform_query_rounds, hacc, if_pos htc, hd, List.mem_singleton] at hri
          subst hri
          simp at hc
      · simp only [perform_query_rounds, hacc, if_neg htc, List.mem_singleton] at hri
        subst hri
        simp at hc

/-! ### Accumulation lemmas -/

theorem foldl_merge_content (rest : List StreamChunk) (c : StreamChunk) :
    (rest.foldl mergeChunk c).content =
      c.content ++ textJoin (rest.map (fun x => x.content)) := by
  induction rest generalizing c with
  | nil => simp [textJoin, String.append_empty]
  | cons x xs ih =>
    simp only [List.foldl_cons, List.map_cons, textJoin, ih, mergeChunk]
    rw [String.append_assoc]

theorem foldl_merge_tool_calls (rest : List StreamChunk) (c : StreamChunk) :
    (rest.foldl mergeChunk c).tool_calls =
      c.tool_calls ++ flat (rest.map (fun x => x.tool_calls)) := by
  induction rest generalizing c with
  | nil => simp [flat]
  | cons x xs ih =>
    simp only [List.foldl_cons, List.map_cons, flat, ih, mergeChunk]
    rw [List.append_assoc]

/-! ### Claim theorems -/

/-- C9: merging the StreamChunks of one assistant turn is order-preserving
concatenation per field — the accumulated response's text is the
concatenation of the chunk texts in arrival order and its tool-call
fragments are the concatenation of the chunk fragments, independently — and
in particular merging chunks with text fragments `["Hel", "lo, ", "world"]`
yields accumulated text `"Hello, world"`. -/
theorem c9_chunk_merge_is_per_field_concat :
    (∀ (chunks : List StreamChunk) (r : StreamChunk), accumulate chunks = some r →
      r.content = textJoin (chunks.map (fun c => c.content)) ∧
      r.tool_calls = flat (chunks.map (fun c => c.tool_calls))) ∧
    accumulate
        [{ content := "Hel", tool_calls := [], finish := none },
         { content := "lo, ", tool_calls := [], finish := none },
         { content := "world", tool_calls := [], finish := none }] =
      some { content := "Hello, world", tool_calls := [], finish := none } := by
  constructor
  · intro chunks r h
    cases chunks with
    | nil => simp [accumulate] at h
    | cons c rest =>
      simp only [accumulate, Option.some.injEq] at h
      subst h
      exact ⟨by simp [foldl_merge_content, textJoin],
             by simp [foldl_merge_tool_calls, flat]⟩
  · rfl

def c9chunks : List StreamChunk :=
  [{ content := "Hel", tool_calls := [], finish := none },
   { content := "lo, ", tool_calls := [], finish := none },
   { content := "world", tool_calls := [], finish := none }]

theorem c9_witness :
    ({ content := "Hello, world", tool_calls := [], finish := none } : StreamChunk).content =
      textJoin (c9chunks.map (fun c => c.content)) ∧
    ({ content := "Hello, world", tool_calls := [], finish := none } : StreamChunk).tool_calls =
      flat (c9chunks.map (fun c => c.tool_calls)) :=
  c9_chunk_merge_is_per_field_concat.1 c9chunks
    { content := "Hello, world", tool_calls := [], finish := none } rfl

/-- C7: within a turn of the conversation loop, the history list only ever
grows by appends — the final contents are the initial contents followed by
the `HumanMessage` and then, round by round, exactly the messages each
round appended — and every round after which another model request was
issued appended its assistant response followed by exactly one
`ToolMessage` per tool call of that response, in the order the calls were
issued, each carrying its call's id. -/
theorem c7_history_append_only_and_matched (tools : ToolMap)
    (script : List (List StreamChunk)) (store : Store) (ref : Ref)
    (input : String) (h : ref < store.lists.length) :
    (perform_query tools script store ref input).store.get ref =
      store.get ref ++ Msg.human input ::
        flat ((perform_query tools script store ref input).rounds.map (fun ri => ri.appended)) ∧
    ∀ ri ∈ (perform_query tools script store ref input).rounds, ri.continued = true →
      ∃ r, ri.response = some r ∧ ri.appended = aiOf r :: ri.results ∧
        resultsMatch r.tool_calls ri.results := by
  constructor
  · have h2 : ref < (store.pushAll ref [Msg.human input]).lists.length := by
      simpa [pushAll_length] using h
    unfold perform_query
    rw [rounds_get_eq tools script _ ref h2, pushAll_get_eq _ _ _ h]
    simp
  · exact rounds_matched tools script _ ref

def c7tools : ToolMap := [("query", fun _ => Except.ok "[]")]

def c7script : List (List StreamChunk) :=
  [[{ content := "", tool_calls := [{ name := "query", args := Json.obj [], id := "call_1" }],
      finish := some "tool_calls" }],
   [{ content := "done", tool_calls := [], finish := some "stop" }]]

theorem c7_witness :
    (0 : Ref) < (⟨[[]]⟩ : Store).lists.length ∧
    ((perform_query c7tools c7script ⟨[[]]⟩ 0 "hi").store.get 0 =
      (⟨[[]]⟩ : Store).get 0 ++ Msg.human "hi" ::
        flat ((perform_query c7tools c7script ⟨[[]]⟩ 0 "hi").rounds.map (fun ri => ri.appended)) ∧
    ∀ ri ∈ (perform_query c7tools c7script ⟨[[]]⟩ 0 "hi").rounds, ri.continued = true →
      ∃ r, ri.response = some r ∧ ri.appended = aiOf r :: ri.results ∧
        resultsMatch r.tool_calls ri.results) :=
  ⟨by decide, c7_history_append_only_and_matched c7tools c7script ⟨[[]]⟩ 0 "hi" (by decide)⟩

/-- C1 counterexample: a response whose finish signal is `tool_calls` but
whose tool-call list is empty terminates the loop at once — with a
two-round script the run answers only one model request, yields no inline
warning fragment at all, and completes — contradicting the claim that the
loop does not terminate, yields one warning fragment and issues one more
model request. -/
theorem c1_counterexample :
    (perform_query []
        [[{ content := "", tool_calls := [], finish := some "tool_calls" }],
         [{ content := "", tool_calls := [], finish := some "tool_calls" }]]
        ⟨[[]]⟩ 0 "hi").requests = 1 ∧
    (perform_query []
        [[{ content := "", tool_calls := [], finish := some "tool_calls" }],
         [{ content := "", tool_calls := [], finish := some "tool_calls" }]]
        ⟨[[]]⟩ 0 "hi").yields = [] ∧
    (perform_query []
        [[{ content := "", tool_calls := [], finish := some "tool_calls" }],
         [{ content := "", tool_calls := [], finish := some "tool_calls" }]]
        ⟨[[]]⟩ 0 "hi").completed = true :=
  ⟨rfl, rfl, rfl⟩

/-- C1 (amended): the loop never inspects the finish signal; a round whose
accumulated response carries the signal `tool_calls` but an empty tool-call
list terminates the loop immediately — exactly one model request is
answered, the only yields are the round's own chunk texts (no warning
fragment), no tool results are appended, and the rest of the script is
never consumed. -/
theorem c1_amended_empty_calls_terminate (tools : ToolMap) (store : Store)
    (ref : Ref) (input : String) (chunks : List StreamChunk)
    (rest : List (List StreamChunk)) (r : StreamChunk)
    (hacc : accumulate chunks = some r) (_hfin : r.finish = some "tool_calls")
    (htc : r.tool_calls = []) :
    (perform_query tools (chunks :: rest) store ref input).requests = 1 ∧
    (perform_query tools (chunks :: rest) store ref input).yields = chunkYields chunks ∧
    (perform_query tools (chunks :: rest) store ref input).completed = true ∧
    (perform_query tools (chunks :: rest) store ref input).rounds =
      [{ response := some r, results := [], appended := [aiOf r], continued := false }] := by
  have hlen : ¬ r.tool_calls.length > 0 := by simp [htc]
  unfold perform_query
  simp only [perform_query_rounds, hacc, if_neg hlen]
  exact ⟨by simp, by simp, by simp, by simp⟩

def c1chunk : StreamChunk :=
  { content := "", tool_calls := [], finish := some "tool_calls" }

theorem c1_witness :
    accumulate [c1chunk] = some c1chunk ∧
    ((perform_query [] [[c1chunk]] ⟨[[]]⟩ 0 "hi").requests = 1 ∧
      (perform_query [] [[c1chunk]] ⟨[[]]⟩ 0 "hi").yields = chunkYields [c1chunk] ∧
      (perform_query [] [[c1chunk]] ⟨[[]]⟩ 0 "hi").completed = true ∧
      (perform_query [] [[c1chunk]] ⟨[[]]⟩ 0 "hi").rounds =
        [{ response := some c1chunk, results := [], appended := [aiOf c1chunk],
           continued := false }]) :=
  ⟨rfl, c1_amended_empty_calls_terminate [] ⟨[[]]⟩ 0 "hi" [c1chunk] [] c1chunk rfl rfl rfl⟩

/-- C2 counterexample: with finish signal `content_filter` (and likewise
`length` and the unrecognized `banana`) the loop does not surface any
moderation-, truncation- or internal-error message: the run terminates
normally, the yields are exactly the streamed text, and the entire final
history is the user message followed by the accumulated response — there is
no error message anywhere, contradicting the claim. -/
theorem c2_counterexample :
    ((perform_query [] [[{ content := "partial", tool_calls := [], finish := some "content_filter" }]]
        ⟨[[]]⟩ 0 "hi").store.get 0 =
        [Msg.human "hi", Msg.ai "partial" [] (some "content_filter")] ∧
      (perform_query [] [[{ content := "partial", tool_calls := [], finish := some "content_filter" }]]
        ⟨[[]]⟩ 0 "hi").yields = ["partial"] ∧
      (perform_query [] [[{ content := "partial", tool_calls := [], finish := some "content_filter" }]]
        ⟨[[]]⟩ 0 "hi").completed = true) ∧
    ((perform_query [] [[{ content := "partial", tool_calls := [], finish := some "length" }]]
        ⟨[[]]⟩ 0 "hi").store.get 0 =
        [Msg.human "hi", Msg.ai "partial" [] (some "length")] ∧
      (perform_query [] [[{ content := "partial", tool_calls := [], finish := some "length" }]]
        ⟨[[]]⟩ 0 "hi").yields = ["partial"]) ∧
    ((perform_query [] [[{ content := "partial", tool_calls := [], finish := some "banana" }]]
        ⟨[[]]⟩ 0 "hi").store.get 0 =
        [Msg.human "hi", Msg.ai "partial" [] (some "banana")] ∧
      (perform_query [] [[{ content := "partial", tool_calls := [], finish := some "banana" }]]
        ⟨[[]]⟩ 0 "hi").yields = ["partial"]) :=
  ⟨⟨rfl, rfl, rfl⟩, ⟨rfl, rfl⟩, ⟨rfl, rfl⟩⟩

/-- C2 (amended): the loop never inspects the finish signal. For every
finish signal `fr` — `content_filter`, `length`, or anything unrecognized —
a round whose response carries no tool calls terminates the loop with the
history extended only by the user message and the response itself and with
no error message of any kind yielded or appended; the behaviour does not
depend on `fr`. -/
theorem c2_amended_finish_signal_ignored (tools : ToolMap) (store : Store)
    (ref : Ref) (input content : String) (fr : Option String)
    (rest : List (List StreamChunk)) (h : ref < store.lists.length) :
    (perform_query tools ([{ content := content, tool_calls := [], finish := fr }] :: rest)
        store ref input).store.get ref =
      store.get ref ++ [Msg.human input, Msg.ai content [] fr] ∧
    (perform_query tools ([{ content := content, tool_calls := [], finish := fr }] :: rest)
        store ref input).yields =
      chunkYields [{ content := content, tool_calls := [], finish := fr }] ∧
    (perform_query tools ([{ content := content, tool_calls := [], finish := fr }] :: rest)
        store ref input).requests = 1 ∧
    (perform_query tools ([{ content := content, tool_calls := [], finish := fr }] :: rest)
        store ref input).completed = true := by
  have h2 : ref < (store.pushAll ref [Msg.human input]).lists.length := by
    simpa [pushAll_length] using h
  have hacc : accumulate [{ content := content, tool_calls := [], finish := fr }] =
      some { content := content, tool_calls := [], finish := fr } := rfl
  have hlen : ¬ ({ content := content, tool_calls := [], finish := fr } : StreamChunk).tool_calls.length > 0 := by
    simp
  unfold perform_query
  simp only [perform_query_rounds, hacc, if_neg hlen]
  refine ⟨?_, by simp, by simp, by simp⟩
  rw [pushAll_get_eq _ _ _ h2, pushAll_get_eq _ _ _ h]
  simp [aiOf]

theorem c2_witness :
    (0 : Ref) < (⟨[[]]⟩ : Store).lists.length ∧
    (perform_query [] [[{ content := "partial", tool_calls := [], finish := some "content_filter" }]]
        ⟨[[]]⟩ 0 "hi").store.get 0 =
      (⟨[[]]⟩ : Store).get 0 ++ [Msg.human "hi", Msg.ai "partial" [] (some "content_filter")] :=
  ⟨by decide,
    (c2_amended_finish_signal_ignored [] ⟨[[]]⟩ 0 "hi" "partial" (some "content_filter") []
      (by decide)).1⟩

/-- C3: for every non-empty SQL string that is not a SELECT statement (such
as `DROP TABLE tips`), the query executor raises rather than returning
rows, and consequently `update_dashboard` called with such a query (in both
the src/app.py and src/query.py variants, and likewise the `query` tool)
never invokes the dashboard state sink. -/
theorem c3_non_select_rejected_sink_untouched (rows : String → String)
    (sql title : String) (hne : sql ≠ "") (hsel : isSelect sql = false) :
    (∃ e, query_db rows sql = Except.error e) ∧
    (update_dashboard_app (query_db rows) sql title).2 = [DashEvent.queryExec sql] ∧
    (∀ q t, DashEvent.dashUpdate q t ∉ (update_dashboard_app (query_db rows) sql title).2) ∧
    (update_dashboard_qp (query_db rows) sql title).2 = [DashEvent.queryExec sql] ∧
    (∀ q t, DashEvent.dashUpdate q t ∉ (update_dashboard_qp (query_db rows) sql title).2) ∧
    (∃ e, query_tool_qp (query_db rows) sql = Except.error e) := by
  have hq : query_db rows sql = Except.error ("not a SELECT statement: " ++ sql) := by
    simp [query_db, hsel]
  refine ⟨⟨_, hq⟩, ?_, ?_, ?_, ?_, ⟨_, hq⟩⟩
  · simp [update_dashboard_app, hne, hq]
  · intro q t
    simp [update_dashboard_app, hne, hq]
  · simp [update_dashboard_qp, hq]
  · intro q t
    simp [update_dashboard_qp, hq]

theorem c3_witness :
    ("DROP TABLE tips" : String) ≠ "" ∧ isSelect "DROP TABLE tips" = false ∧
    ((∃ e, query_db (fun _ => "[]") "DROP TABLE tips" = Except.error e) ∧
      (update_dashboard_app (query_db (fun _ => "[]")) "DROP TABLE tips" "x").2 =
        [DashEvent.queryExec "DROP TABLE tips"] ∧
      (∀ q t, DashEvent.dashUpdate q t ∉
        (update_dashboard_app (query_db (fun _ => "[]")) "DROP TABLE tips" "x").2) ∧
      (update_dashboard_qp (query_db (fun _ => "[]")) "DROP TABLE tips" "x").2 =
        [DashEvent.queryExec "DROP TABLE tips"] ∧
      (∀ q t, DashEvent.dashUpdate q t ∉
        (update_dashboard_qp (query_db (fun _ => "[]")) "DROP TABLE tips" "x").2) ∧
      (∃ e, query_tool_qp (query_db (fun _ => "[]")) "DROP TABLE tips" = Except.error e)) :=
  ⟨by decide, by decide,
    c3_non_select_rejected_sink_untouched (fun _ => "[]") "DROP TABLE tips" "x"
      (by decide) (by decide)⟩

/-- C4 (code bug): dispatching a ToolCall whose name is not registered does
return a well-formed ToolResult with the call's id, role `tool` and the
name, and its content encodes a `success: false` failure — but not an
"unknown tool" error: because the unknown-name branch of
`Toolbox.__call__` lacks a `return`, the unknown-tool payload is computed
and discarded and execution falls through to invoking `None`, so the
content encodes the resulting `TypeError` instead. -/
theorem c4_unknown_tool_dispatch_eval :
    Toolbox.dispatch (fun _ => Except.ok (Json.obj []))
        (Toolbox.ofTools []) { id := "call_1", name := "bogus", arguments := "\x7b\x7d" } =
      { tool_call_id := "call_1", role := "tool", name := "bogus",
        content := dumps (errPayload noneTypeMsg) } ∧
    dumps (errPayload noneTypeMsg) ≠
      dumps (Json.obj [("success", Json.bool false),
        ("error", Json.str "Unknown tool: bogus")]) :=
  ⟨rfl, by decide⟩

/-- C5: for every parser behaviour, wrapped callable and arguments string,
the Tool Wrapper is a total function into a well-formed ToolResult (it
never propagates an exception): on a parse failure, and on any exception
from the wrapped callable, the content is the serialized
`{success: false, error: message, traceback: string}` payload, whose error
field carries the exception message (non-empty whenever the message is).
The src/query.py `safe_tool` wrapper likewise converts any exception into a
`{success: false, error: message}` value instead of propagating. -/
theorem c5_tool_wrapper_never_propagates (loads : String → Except String Json)
    (func : Json → Except String Json) (tc : ToolCall) (e : String) :
    ((toolinvoke loads func tc).tool_call_id = tc.id ∧
      (toolinvoke loads func tc).role = "tool" ∧
      (toolinvoke loads func tc).name = tc.name) ∧
    (loads tc.arguments = Except.error e →
      (toolinvoke loads func tc).content = dumps (errPayload e)) ∧
    (∀ kwargs, loads tc.arguments = Except.ok kwargs → func kwargs = Except.error e →
      (toolinvoke loads func tc).content = dumps (errPayload e)) ∧
    (jsonField (errPayload e) "success" = some (Json.bool false) ∧
      jsonField (errPayload e) "error" = some (Json.str e) ∧
      jsonField (errPayload e) "traceback" = some (Json.str (format_exc e))) ∧
    (e ≠ "" → jsonField (errPayload e) "error" ≠ some (Json.str "")) ∧
    (∀ (fn : Json → Except String Json) (a : Json), fn a = Except.error e →
      safe_tool_wrapper fn a =
        Json.obj [("success", Json.bool false), ("error", Json.str e)]) := by
  refine ⟨⟨rfl, rfl, rfl⟩, ?_, ?_, ⟨rfl, ?_, ?_⟩, ?_, ?_⟩
  · intro h
    simp [toolinvoke, h]
  · intro kwargs h1 h2
    simp [toolinvoke, h1, h2]
  · simp [jsonField, errPayload]
  · simp [jsonField, errPayload]
  · intro he
    simp [jsonField, errPayload, he]
  · intro fn a h
    simp [safe_tool_wrapper, h]

def c5loads : String → Except String Json := fun _ => Except.error "boom"

def c5call : ToolCall := { id := "1", name := "t", arguments := "x" }

theorem c5_witness :
    c5loads c5call.arguments = Except.error "boom" ∧
    (toolinvoke c5loads (fun _ => Except.ok Json.null) c5call).content =
      dumps (errPayload "boom") :=
  ⟨rfl, (c5_tool_wrapper_never_propagates c5loads (fun _ => Except.ok Json.null)
    c5call "boom").2.1 rfl⟩

/-- C6: for every invocation of `update_dashboard` with a non-empty query,
the query executor is invoked exactly once, before the dashboard state sink
is invoked with that same query and title; and when the validation raises,
the sink is never invoked — in both the src/app.py and src/query.py
variants of the tool. -/
theorem c6_validate_once_before_sink (qdb : String → Except String String)
    (q t : String) (hne : q ≠ "") :
    (∀ r, qdb q = Except.ok r →
      (update_dashboard_app qdb q t).2 =
          [DashEvent.queryExec q, DashEvent.dashUpdate q t] ∧
        (update_dashboard_app qdb q t).1 = Except.ok () ∧
        (update_dashboard_qp qdb q t).2 =
          [DashEvent.queryExec q, DashEvent.dashUpdate q t]) ∧
    (∀ e, qdb q = Except.error e →
      (update_dashboard_app qdb q t).2 = [DashEvent.queryExec q] ∧
        (update_dashboard_app qdb q t).1 = Except.error e ∧
        (update_dashboard_qp qdb q t).2 = [DashEvent.queryExec q]) := by
  constructor
  · intro r hr
    refine ⟨?_, ?_, ?_⟩ <;> simp [update_dashboard_app, update_dashboard_qp, hne, hr]
  · intro e he
    refine ⟨?_, ?_, ?_⟩ <;> simp [update_dashboard_app, update_dashboard_qp, hne, he]

theorem c6_witness :
    ("SELECT * FROM tips WHERE sex = 1" : String) ≠ "" ∧
    ((fun _ => Except.ok "[]") ("SELECT * FROM tips WHERE sex = 1" : String) =
      (Except.ok "[]" : Except String String)) ∧
    (update_dashboard_app (fun _ => Except.ok "[]") "SELECT * FROM tips WHERE sex = 1"
        "Female tippers").2 =
      [DashEvent.queryExec "SELECT * FROM tips WHERE sex = 1",
        DashEvent.dashUpdate "SELECT * FROM tips WHERE sex = 1" "Female tippers"] :=
  ⟨by decide, rfl,
    ((c6_validate_once_before_sink (fun _ => Except.ok "[]")
      "SELECT * FROM tips WHERE sex = 1" "Female tippers" (by decide)).1 "[]" rfl).1⟩

/-- Projection of the `required` field out of a tool descriptor:
`schema["function"]["parameters"]["required"]`. -/
def requiredOf (schema : Json) : Option Json :=
  match jsonField schema "function" with
  | some fj =>
      match jsonField fj "parameters" with
      | some pj => jsonField pj "required"
      | none => none
  | none => none

theorem toolDec_requiredOf (f : PyFunc) (impl : Json → Except String Json)
    (nm : Option String) (t : WrappedTool) (h : toolDec f impl nm = Except.ok t) :
    requiredOf t.schema =
      some (Json.arr ((f.params.filter isRequiredParam).map (fun p => Json.str p.name))) := by
  cases hs : func_to_schema f (some (pyOr nm f.name)) with
  | error e =>
    simp only [toolDec, hs] at h
    exact Except.noConfusion h
  | ok schema =>
    simp only [toolDec, hs] at h
    injection h with h2
    subst h2
    cases hp : fieldsToSchema (f.annots.filter (fun kv => kv.1 ≠ "return")) with
    | error e =>
      simp only [func_to_schema, hp] at hs
      exact Except.noConfusion hs
    | ok props =>
      simp only [func_to_schema, hp] at hs
      injection hs with hs2
      subst hs2
      cases f.doc <;> rfl

/-- C8: for every successfully registered tool list, the Toolbox's schema
list contains exactly one descriptor per registered tool, and each
descriptor's `required` field is exactly the list of its callable's
parameters that have no default value and are not variadic
(`*args`/`**kwargs`), in signature order. -/
theorem c8_schema_required_exact (fns : List (PyFunc × (Json → Except String Json)))
    (ts : List WrappedTool) (h : mkTools fns = Except.ok ts) :
    (Toolbox.ofTools ts).schema.length = fns.length ∧
    List.Forall₂ (fun (fn : PyFunc × (Json → Except String Json)) (sj : Json) =>
        requiredOf sj =
          some (Json.arr ((fn.1.params.filter isRequiredParam).map (fun p => Json.str p.name))))
      fns (Toolbox.ofTools ts).schema := by
  induction fns generalizing ts with
  | nil =>
    simp only [mkTools] at h
    injection h with h2
    subst h2
    exact ⟨rfl, List.Forall₂.nil⟩
  | cons fimpl rest ih =>
    obtain ⟨f, impl⟩ := fimpl
    cases ht : toolDec f impl none with
    | error e =>
      simp only [mkTools, ht] at h
      exact Except.noConfusion h
    | ok t =>
      cases hts : mkTools rest with
      | error e =>
        simp only [mkTools, ht, hts] at h
        exact Except.noConfusion h
      | ok ts0 =>
        simp only [mkTools, ht, hts] at h
        injection h with h2
        subst h2
        have ihres := ih ts0 hts
        have hl : ts0.length = rest.length := by
          simpa [Toolbox.ofTools] using ihres.1
        constructor
        · simp [Toolbox.ofTools, hl]
        · exact List.Forall₂.cons (toolDec_requiredOf f impl none t ht) ihres.2

/-- The `foo` function of src/tool.py's own `_test`:
`foo(a: int, b: str = "blah", *args, c: Annotated[str, "The c string"],
**kwargs) -> None`, documented, expected `required = ["a", "c"]`. -/
def c8func : PyFunc :=
  { name := "foo", doc := some "Docstring for the function",
    params :=
      [{ name := "a", kind := ParamKind.positional_or_keyword, hasDefault := false },
       { name := "b", kind := ParamKind.positional_or_keyword, hasDefault := true },
       { name := "args", kind := ParamKind.var_positional, hasDefault := false },
       { name := "c", kind := ParamKind.keyword_only, hasDefault := false },
       { name := "kwargs", kind := ParamKind.var_keyword, hasDefault := false }],
    annots :=
      [("a", PyType.int), ("b", PyType.str),
       ("c", PyType.annot PyType.str "The c string"), ("return", PyType.noneType)] }

def c8fns : List (PyFunc × (Json → Except String Json)) :=
  [(c8func, fun _ => Except.ok Json.null)]

def c8ts : List WrappedTool :=
  match mkTools c8fns with
  | .ok ts => ts
  | .error _ => []

theorem c8_witness :
    mkTools c8fns = Except.ok c8ts ∧
    ((Toolbox.ofTools c8ts).schema.length = c8fns.length ∧
      List.Forall₂ (fun (fn : PyFunc × (Json → Except String Json)) (sj : Json) =>
          requiredOf sj =
            some (Json.arr ((fn.1.params.filter isRequiredParam).map (fun p => Json.str p.name))))
        c8fns (Toolbox.ofTools c8ts).schema) :=
  ⟨rfl, c8_schema_required_exact c8fns c8ts rfl⟩

/-- C10: `explain_plot` operates on a shallow copy of the caller-supplied
messages list, so the caller's history list object is unchanged by the
explain-plot turn — even though the turn runs `perform_query`, which
appends (at least the user message, and then every round's messages) to the
list it is given, as the second conjunct shows for the copy. -/
theorem c10_explain_plot_preserves_caller_history (tools : ToolMap)
    (script : List (List StreamChunk)) (store : Store) (caller : Ref)
    (prompt : String) (h : caller < store.lists.length) :
    (explain_plot tools script store caller prompt).store.get caller = store.get caller ∧
    (explain_plot tools script store caller prompt).store.get store.lists.length =
      store.get caller ++ Msg.human prompt ::
        flat ((explain_plot tools script store caller prompt).rounds.map (fun ri => ri.appended)) := by
  have key : explain_plot tools script store caller prompt =
      perform_query tools script ⟨store.lists ++ [store.get caller]⟩
        store.lists.length prompt := rfl
  have hne : caller ≠ store.lists.length := Nat.ne_of_lt h
  have hcopy : store.lists.length <
      (⟨store.lists ++ [store.get caller]⟩ : Store).lists.length := by
    simp
  have h2 : store.lists.length <
      ((⟨store.lists ++ [store.get caller]⟩ : Store).pushAll store.lists.length
        [Msg.human prompt]).lists.length := by
    simp [pushAll_length]
  have hseed : (⟨store.lists ++ [store.get caller]⟩ : Store).get store.lists.length =
      store.get caller := getList_append_self store.lists (store.get caller)
  constructor
  · rw [key]
    unfold perform_query
    rw [rounds_get_ne _ _ _ _ _ hne, pushAll_get_ne _ _ _ _ hne]
    exact getList_append_left store.lists [store.get caller] caller h
  · rw [key]
    unfold perform_query
    rw [rounds_get_eq _ _ _ _ h2, pushAll_get_eq _ _ _ hcopy, hseed]
    simp

theorem c10_witness :
    (0 : Ref) < (⟨[[Msg.system "sys"]]⟩ : Store).lists.length ∧
    (explain_plot [] [] ⟨[[Msg.system "sys"]]⟩ 0 "p").store.get 0 =
      (⟨[[Msg.system "sys"]]⟩ : Store).get 0 :=
  ⟨by decide,
    (c10_explain_plot_preserves_caller_history [] [] ⟨[[Msg.system "sys"]]⟩ 0 "p"
      (by decide)).1⟩

end Sidebot
